import Mathlib

/-!
Verification development for the BetGenius prediction and backtesting
engine.  The repository ships the engine's documentation and frontend;
the backend implementation (`server.py`) is not part of the source tree,
so the definitions below are modelled from the specification (and the
code excerpts quoted in the repository's documentation), as noted in
each doc comment.
-/

set_option maxHeartbeats 1000000

/-- The three possible match outcomes, listed in the iteration order of
the engine's probability dictionary (`home`, `draw`, `away`). -/
inductive Outcome : Type
  | home : Outcome
  | draw : Outcome
  | away : Outcome
deriving DecidableEq, Repr

/-- A triple of per-outcome values (probabilities, odds, ...). -/
structure Triple (α : Type) : Type where
  home : α
  draw : α
  away : α

/-- Look up the component of a `Triple` belonging to an `Outcome`. -/
def Triple.get {α : Type} (t : Triple α) : Outcome → α
  | Outcome.home => t.home
  | Outcome.draw => t.draw
  | Outcome.away => t.away

/-- Modelled from the spec (§4.6) and the code excerpt
`best_outcome = max(probs.keys(), key=lambda k: probs[k])` quoted in the
repository's fix documentation; `server.py` itself is not in the source
tree.  Python's `max` over the key order `home, draw, away` keeps the
first maximal element, which is what the nested comparisons implement. -/
def best_outcome {α : Type} [LinearOrder α] (probs : Triple α) : Outcome :=
  if probs.home < probs.draw then
    (if probs.draw < probs.away then Outcome.away else Outcome.draw)
  else
    (if probs.home < probs.away then Outcome.away else Outcome.home)

/-- Modelled from the spec (§4.6): the bookmaker-implied probability of
an outcome is the reciprocal of its decimal odds. -/
def market_probability {α : Type} [Field α] (odds : α) : α :=
  1 / odds

/-- Modelled from the spec (§4.6):
`edge% = (model_prob - market_prob) / market_prob × 100`. -/
def edge_percentage {α : Type} [Field α] (model_prob market_prob : α) : α :=
  (model_prob - market_prob) / market_prob * 100

/-- A generated pick: chosen outcome, the model probabilities and market
odds it was generated from, and the value edge of the chosen outcome. -/
structure Pick (α : Type) : Type where
  outcome : Outcome
  model_probs : Triple α
  market_odds : Triple α
  edge : α

/-- Modelled from the spec (§4.6): the Edge/Confidence Scorer selects
the outcome with the highest model probability and then computes the
edge of that already-selected outcome against the synthesized market
probability. -/
def generate_pick {α : Type} [LinearOrderedField α]
    (probs : Triple α) (odds : Triple α) : Pick α :=
  let o := best_outcome probs
  { outcome := o
    model_probs := probs
    market_odds := odds
    edge := edge_percentage (probs.get o) (market_probability (odds.get o)) }

theorem best_outcome_ge {α : Type} [LinearOrder α]
    (probs : Triple α) (o : Outcome) :
    probs.get o ≤ probs.get (best_outcome probs) := by
  unfold best_outcome
  by_cases h1 : probs.home < probs.draw
  · by_cases h2 : probs.draw < probs.away
    · simp only [h1, h2, if_true, Triple.get]
      rcases o with _ | _ | _
      · exact ((h1.trans h2)).le
      · exact h2.le
      · exact le_rfl
    · simp only [h1, h2, if_true, if_false, Triple.get]
      rcases o with _ | _ | _
      · exact h1.le
      · exact le_rfl
      · exact le_of_not_lt h2
  · by_cases h3 : probs.home < probs.away
    · simp only [h1, h3, if_true, if_false, Triple.get]
      rcases o with _ | _ | _
      · exact h3.le
      · exact (le_of_not_lt h1).trans h3.le
      · exact le_rfl
    · simp only [h1, h3, if_false, Triple.get]
      rcases o with _ | _ | _
      · exact le_rfl
      · exact le_of_not_lt h1
      · exact le_of_not_lt h3

/-- The logistic function used by the calibrator's home/away split. -/
noncomputable def sigmoid (x : ℝ) : ℝ :=
  1 / (1 + Real.exp (-x))

/-- Modelled from the spec (§4.4) and the `evenness_factor` excerpt in
the repository's fix documentation; `server.py` itself is not in the
source tree.  The draw probability is `0.25 + 0.15 * evenness` where
`evenness = 1 - min(|diff|, 0.8) / 0.8`. -/
noncomputable def draw_probability (diff : ℝ) : ℝ :=
  0.25 + 0.15 * (1 - min |diff| 0.8 / 0.8)

/-- Modelled from the spec (§4.4): the weighted-model probability
calibrator.  `diff = home - away`; the dynamic draw probability is
`draw_probability diff`, and the remaining mass is split between home
and away by a sigmoid of `diff` with steepness `1.8` (the steepness
quoted in the repository's fix documentation). -/
noncomputable def calculate_outcome_probabilities (home_score away_score : ℝ) :
    Triple ℝ :=
  let diff := home_score - away_score
  let dp := draw_probability diff
  let s := sigmoid (1.8 * diff)
  { home := (1 - dp) * s
    draw := dp
    away := (1 - dp) * (1 - s) }

theorem one_add_exp_pos (x : ℝ) : 0 < 1 + Real.exp x := by
  have := Real.exp_pos x
  linarith

theorem sigmoid_pos (x : ℝ) : 0 < sigmoid x := by
  unfold sigmoid
  exact div_pos one_pos (one_add_exp_pos (-x))

theorem sigmoid_lt_one (x : ℝ) : sigmoid x < 1 := by
  unfold sigmoid
  rw [div_lt_one (one_add_exp_pos (-x))]
  have := Real.exp_pos (-x)
  linarith

theorem sigmoid_zero : sigmoid 0 = 1 / 2 := by
  unfold sigmoid
  rw [neg_zero, Real.exp_zero]
  norm_num

theorem sigmoid_neg (x : ℝ) : sigmoid (-x) = 1 - sigmoid x := by
  unfold sigmoid
  have hx : Real.exp (-x) ≠ 0 := (Real.exp_pos (-x)).ne'
  have h1 : (0:ℝ) < 1 + Real.exp (-x) := one_add_exp_pos (-x)
  have h2 : (0:ℝ) < 1 + Real.exp x := one_add_exp_pos x
  have hmul : Real.exp x * Real.exp (-x) = 1 := by
    rw [← Real.exp_add]
    simp
  field_simp
  nlinarith [hmul]

theorem sigmoid_strictMono : StrictMono sigmoid := by
  intro a b hab
  unfold sigmoid
  have h1 : (0:ℝ) < 1 + Real.exp (-a) := one_add_exp_pos (-a)
  have h2 : (0:ℝ) < 1 + Real.exp (-b) := one_add_exp_pos (-b)
  rw [div_lt_div_iff₀ h1 h2]
  have : Real.exp (-b) < Real.exp (-a) := Real.exp_lt_exp.mpr (by linarith)
  linarith

theorem draw_probability_nonneg (d : ℝ) : 0 ≤ draw_probability d := by
  unfold draw_probability
  have h1 : min |d| 0.8 / 0.8 ≤ 1 := by
    rw [div_le_one (by norm_num : (0:ℝ) < 0.8)]
    exact min_le_right _ _
  linarith

theorem draw_probability_le (d : ℝ) : draw_probability d ≤ 0.4 := by
  unfold draw_probability
  have h1 : (0:ℝ) ≤ min |d| 0.8 / 0.8 :=
    div_nonneg (le_min (abs_nonneg d) (by norm_num)) (by norm_num)
  linarith

/-- Closed form of the draw probability inside the saturation band. -/
theorem draw_probability_of_le (d : ℝ) (h : |d| ≤ 0.8) :
    draw_probability d = 0.4 - 0.1875 * |d| := by
  unfold draw_probability
  rw [min_eq_left h]
  ring

/-- Closed form of the draw probability beyond the saturation band. -/
theorem draw_probability_of_ge (d : ℝ) (h : 0.8 ≤ |d|) :
    draw_probability d = 0.25 := by
  unfold draw_probability
  rw [min_eq_right h]
  norm_num

theorem cop_home (h a : ℝ) :
    (calculate_outcome_probabilities h a).home =
      (1 - draw_probability (h - a)) * sigmoid (1.8 * (h - a)) := rfl

theorem cop_draw (h a : ℝ) :
    (calculate_outcome_probabilities h a).draw = draw_probability (h - a) := rfl

theorem cop_away (h a : ℝ) :
    (calculate_outcome_probabilities h a).away =
      (1 - draw_probability (h - a)) * (1 - sigmoid (1.8 * (h - a))) := rfl

theorem exp_018_ge : (1.18:ℝ) ≤ Real.exp 0.18 := by
  have h := Real.add_one_le_exp (0.18:ℝ)
  linarith

theorem exp_neg_018_ge : (0.82:ℝ) ≤ Real.exp (-0.18) := by
  have h := Real.add_one_le_exp (-0.18:ℝ)
  linarith

theorem exp_072_gt : (2.04:ℝ) < Real.exp 0.72 := by
  have h1 : (1.018:ℝ) ≤ Real.exp 0.018 := by
    have := Real.add_one_le_exp (0.018:ℝ)
    linarith
  have h2 : Real.exp 0.72 = Real.exp 0.018 ^ (40:ℕ) := by
    rw [← Real.exp_nat_mul]
    norm_num
  have h3 : (1.018:ℝ) ^ (40:ℕ) ≤ Real.exp 0.018 ^ (40:ℕ) :=
    pow_le_pow_left₀ (by norm_num) h1 40
  have h4 : (2.04:ℝ) < (1.018:ℝ) ^ (40:ℕ) := by norm_num
  rw [h2]
  exact lt_of_lt_of_le h4 h3

theorem exp_072_lt : Real.exp 0.72 < 2.09 := by
  have h0 : (0.955:ℝ) ≤ Real.exp (-0.045) := by
    have := Real.add_one_le_exp (-0.045:ℝ)
    linarith
  have hp : (0:ℝ) < Real.exp 0.045 := Real.exp_pos _
  have h1 : Real.exp 0.045 ≤ 1 / 0.955 := by
    rw [Real.exp_neg] at h0
    have hinv : Real.exp 0.045 * (Real.exp 0.045)⁻¹ = 1 := mul_inv_cancel₀ hp.ne'
    rw [le_div_iff₀ (by norm_num : (0:ℝ) < 0.955)]
    nlinarith [mul_le_mul_of_nonneg_left h0 hp.le]
  have h2 : Real.exp 0.72 = Real.exp 0.045 ^ (16:ℕ) := by
    rw [← Real.exp_nat_mul]
    norm_num
  have h3 : Real.exp 0.045 ^ (16:ℕ) ≤ (1 / 0.955 : ℝ) ^ (16:ℕ) :=
    pow_le_pow_left₀ hp.le h1 16
  have h4 : ((1 / 0.955 : ℝ)) ^ (16:ℕ) < 2.09 := by norm_num
  rw [h2]
  exact lt_of_le_of_lt h3 h4

/-- Modelled from the spec (§4.3): the Poisson probability mass
function `P(k; λ) = e^-λ λ^k / k!`. -/
noncomputable def poisson_pmf (lam : ℝ) (k : ℕ) : ℝ :=
  Real.exp (-lam) * lam ^ k / (Nat.factorial k)

/-- Modelled from the spec (§4.3): the score grid enumerates goal
counts `0..K` with `K = 10`. -/
def grid_max : ℕ := 10

/-- Modelled from the spec (§4.3): the total Poisson probability mass
of the grid cells satisfying `cell`. -/
noncomputable def poisson_mass (lh la : ℝ) (cell : ℕ → ℕ → Prop)
    [inst : ∀ i j, Decidable (cell i j)] : ℝ :=
  ∑ i ∈ Finset.range (grid_max + 1), ∑ j ∈ Finset.range (grid_max + 1),
    if cell i j then poisson_pmf lh i * poisson_pmf la j else 0

/-- Modelled from the spec (§4.3): outcome probabilities of the xG
Poisson model are the grid masses of `home>away`, `home==away` and
`home<away`, normalized by the total grid mass. -/
noncomputable def xg_outcome_probabilities (lh la : ℝ) : Triple ℝ :=
  let total := poisson_mass lh la (fun _ _ => True)
  { home := poisson_mass lh la (fun i j => j < i) / total
    draw := poisson_mass lh la (fun i j => i = j) / total
    away := poisson_mass lh la (fun i j => i < j) / total }

/-- The exponential-free rational skeleton of a grid cell. -/
def qcell (lh la : ℚ) (i j : ℕ) : ℚ :=
  lh ^ i / (Nat.factorial i) * (la ^ j / (Nat.factorial j))

/-- The exponential-free rational skeleton of `poisson_mass`. -/
def qmass (lh la : ℚ) (cell : ℕ → ℕ → Prop)
    [inst : ∀ i j, Decidable (cell i j)] : ℚ :=
  ∑ i ∈ Finset.range (grid_max + 1), ∑ j ∈ Finset.range (grid_max + 1),
    if cell i j then qcell lh la i j else 0

theorem poisson_mass_eq_qmass (lh la : ℚ) (cell : ℕ → ℕ → Prop)
    [inst : ∀ i j, Decidable (cell i j)] :
    poisson_mass (lh:ℝ) (la:ℝ) cell =
      Real.exp (-((lh:ℝ) + (la:ℝ))) * ((qmass lh la cell : ℚ) : ℝ) := by
  unfold poisson_mass qmass qcell
  push_cast
  rw [Finset.mul_sum]
  refine Finset.sum_congr rfl (fun i _ => ?_)
  rw [Finset.mul_sum]
  refine Finset.sum_congr rfl (fun j _ => ?_)
  by_cases hc : cell i j
  · rw [if_pos hc, if_pos hc]
    unfold poisson_pmf
    rw [neg_add, Real.exp_add]
    push_cast
    ring
  · rw [if_neg hc, if_neg hc]
    norm_num

theorem poisson_mass_partition (lh la : ℝ) :
    poisson_mass lh la (fun i j => j < i) +
      poisson_mass lh la (fun i j => i = j) +
      poisson_mass lh la (fun i j => i < j) =
      poisson_mass lh la (fun _ _ => True) := by
  unfold poisson_mass
  rw [← Finset.sum_add_distrib, ← Finset.sum_add_distrib]
  refine Finset.sum_congr rfl (fun i _ => ?_)
  rw [← Finset.sum_add_distrib, ← Finset.sum_add_distrib]
  refine Finset.sum_congr rfl (fun j _ => ?_)
  rcases Nat.lt_trichotomy j i with h | h | h
  · rw [if_pos h, if_neg (by omega : ¬ i = j), if_neg (by omega : ¬ i < j),
      if_pos trivial]
    ring
  · rw [if_neg (by omega : ¬ j < i), if_pos (by omega : i = j),
      if_neg (by omega : ¬ i < j), if_pos trivial]
    ring
  · rw [if_neg (by omega : ¬ j < i), if_neg (by omega : ¬ i = j), if_pos h,
      if_pos trivial]
    ring

theorem poisson_pmf_pos (lam : ℝ) (hl : 0 < lam) (k : ℕ) :
    0 < poisson_pmf lam k := by
  unfold poisson_pmf
  have h1 : (0:ℝ) < Real.exp (-lam) := Real.exp_pos _
  have h2 : (0:ℝ) < lam ^ k := pow_pos hl k
  have h3 : (0:ℝ) < (Nat.factorial k : ℝ) := by
    exact_mod_cast Nat.factorial_pos k
  positivity

theorem poisson_total_pos (lh la : ℝ) (h1 : 0 < lh) (h2 : 0 < la) :
    0 < poisson_mass lh la (fun _ _ => True) := by
  unfold poisson_mass
  refine Finset.sum_pos (fun i _ => ?_) ⟨0, Finset.mem_range.mpr (by omega)⟩
  refine Finset.sum_pos (fun j _ => ?_) ⟨0, Finset.mem_range.mpr (by omega)⟩
  rw [if_pos trivial]
  exact mul_pos (poisson_pmf_pos lh h1 i) (poisson_pmf_pos la h2 j)

theorem qmass_away_lt_home :
    qmass (9/5) (13/10) (fun i j => i < j) <
      qmass (9/5) (13/10) (fun i j => j < i) := by
  norm_num [qmass, qcell, grid_max, Finset.sum_range_succ, Nat.factorial]

theorem qmass_draw_lt_away :
    qmass (9/5) (13/10) (fun i j => i = j) <
      qmass (9/5) (13/10) (fun i j => i < j) := by
  norm_num [qmass, qcell, grid_max, Finset.sum_range_succ, Nat.factorial]

/-- Per-outcome team xG statistics consumed by the Poisson model. -/
structure XgStats : Type where
  xg_per_match : ℝ
  xga_per_match : ℝ

/-- League-wide average goals (overall and home/away splits). -/
structure LeagueAverages : Type where
  overall : ℝ
  home : ℝ
  away : ℝ

/-- Modelled from the spec (§4.3):
`attackStrength = team.xgPerMatch / leagueAverage`. -/
noncomputable def attack_strength (t : XgStats) (league_avg : ℝ) : ℝ :=
  t.xg_per_match / league_avg

/-- Modelled from the spec (§4.3):
`defenseStrength = team.xgaPerMatch / leagueAverage`. -/
noncomputable def defense_strength (t : XgStats) (league_avg : ℝ) : ℝ :=
  t.xga_per_match / league_avg

/-- Modelled from the spec (§4.3):
`λ_home = leagueAvgHome × homeAttack × awayDefense`. -/
noncomputable def lambda_home (home away : XgStats) (L : LeagueAverages) : ℝ :=
  L.home * attack_strength home L.overall * defense_strength away L.overall

/-- Modelled from the spec (§4.3):
`λ_away = leagueAvgAway × awayAttack × homeDefense`. -/
noncomputable def lambda_away (home away : XgStats) (L : LeagueAverages) : ℝ :=
  L.away * attack_strength away L.overall * defense_strength home L.overall

/-- An xG Poisson pick: projected scores together with the generated
`Pick`. -/
structure XgPick : Type where
  projected_home_score : ℝ
  projected_away_score : ℝ
  pick : Pick ℝ

/-- Modelled from the spec (§4.3/§4.6); `server.py` is not in the
source tree.  The xG Poisson path: derive the lambdas, report them
directly as the projected score, compute grid outcome probabilities and
feed them to the shared pick generator. -/
noncomputable def generate_xg_poisson_pick (home away : XgStats)
    (L : LeagueAverages) (odds : Triple ℝ) : XgPick :=
  let lh := lambda_home home away L
  let la := lambda_away home away L
  { projected_home_score := lh
    projected_away_score := la
    pick := generate_pick (xg_outcome_probabilities lh la) odds }

theorem xg_sum_eq_one (lh la : ℝ) (h1 : 0 < lh) (h2 : 0 < la) :
    (xg_outcome_probabilities lh la).home +
      (xg_outcome_probabilities lh la).draw +
      (xg_outcome_probabilities lh la).away = 1 := by
  unfold xg_outcome_probabilities
  have hT : 0 < poisson_mass lh la (fun _ _ => True) :=
    poisson_total_pos lh la h1 h2
  rw [div_add_div_same, div_add_div_same, poisson_mass_partition]
  exact div_self hT.ne'

theorem xg_ordering_18_13 :
    (xg_outcome_probabilities 1.8 1.3).away <
        (xg_outcome_probabilities 1.8 1.3).home ∧
      (xg_outcome_probabilities 1.8 1.3).draw <
        (xg_outcome_probabilities 1.8 1.3).away := by
  have hc1 : ((9/5 : ℚ) : ℝ) = 1.8 := by norm_num
  have hc2 : ((13/10 : ℚ) : ℝ) = 1.3 := by norm_num
  have hT : 0 < poisson_mass 1.8 1.3 (fun _ _ => True) :=
    poisson_total_pos 1.8 1.3 (by norm_num) (by norm_num)
  have hexp : (0:ℝ) < Real.exp (-(((9/5 : ℚ) : ℝ) + ((13/10 : ℚ) : ℝ))) :=
    Real.exp_pos _
  have hmass : ∀ (cell cell' : ℕ → ℕ → Prop)
      [inst : ∀ i j, Decidable (cell i j)]
      [inst' : ∀ i j, Decidable (cell' i j)],
      qmass (9/5) (13/10) cell < qmass (9/5) (13/10) cell' →
      poisson_mass 1.8 1.3 cell < poisson_mass 1.8 1.3 cell' := by
    intro cell cell' inst inst' hlt
    rw [← hc1, ← hc2, poisson_mass_eq_qmass, poisson_mass_eq_qmass]
    exact mul_lt_mul_of_pos_left (by exact_mod_cast hlt) hexp
  constructor
  · unfold xg_outcome_probabilities
    exact div_lt_div_of_pos_right (hmass _ _ qmass_away_lt_home) hT
  · unfold xg_outcome_probabilities
    exact div_lt_div_of_pos_right (hmass _ _ qmass_draw_lt_away) hT

/-- A team profile: the ratings consumed by the weighted factor model
plus the team's xG statistics for the Poisson model. -/
structure TeamProfile : Type where
  offense : ℝ
  defense : ℝ
  form : ℝ
  injury : ℝ
  xg : XgStats

/-- A model configuration: its kind flag (`use_xg_model`, as in the
repository's fix documentation) and the five named factor weights. -/
structure ModelConfig : Type where
  use_xg_model : Bool
  team_offense : ℝ
  team_defense : ℝ
  recent_form : ℝ
  injuries : ℝ
  home_advantage : ℝ

/-- The declared total of a configuration's weights. -/
noncomputable def weight_total (m : ModelConfig) : ℝ :=
  m.team_offense + m.team_defense + m.recent_form + m.injuries +
    m.home_advantage

/-- Modelled from the spec (§4.2) and the `calculate_team_score`
excerpt in the repository's documentation; `server.py` is not in the
source tree.  Weights are normalized by their declared total, factor
contributions are scaled rating fractions, and the projected score is
clamped to a sane goal range. -/
noncomputable def calculate_team_score (m : ModelConfig)
    (team : TeamProfile) (is_home : Bool) : ℝ :=
  let total := weight_total m
  let offense_contrib := team.offense / 100 * (m.team_offense / total) * 3
  let form_contrib := team.form / 100 * (m.recent_form / total) * 2
  let injury_penalty := team.injury / 100 * (m.injuries / total)
  let home_bonus := if is_home then 0.3 * (m.home_advantage / total) else 0
  min (max (offense_contrib + form_contrib + home_bonus - injury_penalty)
    0.5) 4.0

/-- A fixture as consumed by pick generation and the simulation: the
two team profiles, the synthesized market odds triple and (for
completed fixtures) the actual result. -/
structure Fixture : Type where
  home : TeamProfile
  away : TeamProfile
  market_odds : Triple ℝ
  actual_result : Outcome

/-- Modelled from the spec (§4.2-§4.4): the model probabilities of a
fixture, dispatching on the model's kind.  Poisson models go through
the grid probabilities, weighted models through the weighted score plus
calibration. -/
noncomputable def model_probabilities (m : ModelConfig)
    (L : LeagueAverages) (f : Fixture) : Triple ℝ :=
  if m.use_xg_model then
    xg_outcome_probabilities (lambda_home f.home.xg f.away.xg L)
      (lambda_away f.home.xg f.away.xg L)
  else
    calculate_outcome_probabilities (calculate_team_score m f.home true)
      (calculate_team_score m f.away false)

/-- Modelled from the spec (§4.6): live pick generation for one
fixture feeds the dispatched model probabilities and the fixture's
market odds to the shared pick generator. -/
noncomputable def generate_pick_for_fixture (m : ModelConfig)
    (L : LeagueAverages) (f : Fixture) : Pick ℝ :=
  generate_pick (model_probabilities m L f) f.market_odds

/-- One per-fixture record retained by the simulation. -/
structure PredictionRecord : Type where
  predicted : Outcome
  actual : Outcome
  odds : ℝ
  edge : ℝ
  correct : Bool

/-- Modelled from the spec (§4.7) and the simulation excerpt in the
repository's fix documentation (`is_xg_model = weights.get(...)`);
`server.py` is not in the source tree.  The simulation's per-fixture
step dispatches on the model kind and applies the same pick-selection
and edge logic as live generation. -/
noncomputable def simulate_fixture (m : ModelConfig) (L : LeagueAverages)
    (f : Fixture) : PredictionRecord :=
  if m.use_xg_model then
    let xp := generate_xg_poisson_pick f.home.xg f.away.xg L f.market_odds
    { predicted := xp.pick.outcome
      actual := f.actual_result
      odds := f.market_odds.get xp.pick.outcome
      edge := xp.pick.edge
      correct := decide (xp.pick.outcome = f.actual_result) }
  else
    let probs := calculate_outcome_probabilities
      (calculate_team_score m f.home true)
      (calculate_team_score m f.away false)
    let o := best_outcome probs
    { predicted := o
      actual := f.actual_result
      odds := f.market_odds.get o
      edge := edge_percentage (probs.get o)
        (market_probability (f.market_odds.get o))
      correct := decide (o = f.actual_result) }

/-- The aggregate result of a simulation run. -/
structure SimulationResult : Type where
  total_games : ℕ
  correct_predictions : ℕ
  accuracy_percentage : ℝ
  net_profit : ℝ
  total_stake : ℝ
  roi_percentage : ℝ
  predictions : List PredictionRecord

/-- Modelled from the spec (§4.7); `server.py` is not in the source
tree.  The simulation runner replays the model over the fixture list
with a fixed stake per bet: profit is `stake×(odds-1)` for a correct
prediction and `-stake` otherwise; accuracy and ROI are percentages of
the totals. -/
noncomputable def run_simulation (m : ModelConfig) (L : LeagueAverages)
    (games : List Fixture) (stake : ℝ) : SimulationResult :=
  let recs := games.map (simulate_fixture m L)
  let correct := (recs.filter (fun r => r.correct)).length
  let profit :=
    (recs.map (fun r => if r.correct then stake * (r.odds - 1) else -stake)).sum
  { total_games := games.length
    correct_predictions := correct
    accuracy_percentage := 100 * correct / games.length
    net_profit := profit
    total_stake := stake * games.length
    roi_percentage := 100 * profit / (stake * games.length)
    predictions := recs }

/-- Modelled from the spec (§4.7, §5); `server.py` is not in the
source tree.  The service has an ambient entropy source (consumed only
by the mock fixture/odds generator, an ingestion collaborator outside
the engine); the simulation computation itself never samples it, which
the definition records by ignoring the `rng` argument. -/
noncomputable def run_simulation_with_entropy (rng : ℕ → ℤ)
    (m : ModelConfig) (L : LeagueAverages) (games : List Fixture)
    (stake : ℝ) : SimulationResult :=
  run_simulation m L games stake

/-- Modelled from the spec (§4.6, §5): live pick generation with the
ambient entropy source in scope; the engine never samples it. -/
noncomputable def generate_picks_with_entropy (rng : ℕ → ℤ)
    (m : ModelConfig) (L : LeagueAverages) (games : List Fixture) :
    List (Pick ℝ) :=
  games.map (generate_pick_for_fixture m L)

/-- The home share of the calibrator as a function of the score
difference. -/
noncomputable def home_split (d : ℝ) : ℝ :=
  (1 - draw_probability d) * sigmoid (1.8 * d)

theorem cop_home_eq_split (h a : ℝ) :
    (calculate_outcome_probabilities h a).home = home_split (h - a) := rfl

theorem one_minus_draw (d : ℝ) :
    1 - draw_probability d = 0.6 + 0.1875 * min |d| 0.8 := by
  unfold draw_probability
  ring

theorem home_split_eq_mid (d : ℝ) (h1 : -0.8 ≤ d) (h2 : d ≤ 0) :
    home_split d = (0.6 - 0.1875 * d) * sigmoid (1.8 * d) := by
  unfold home_split
  rw [one_minus_draw]
  have habs : |d| = -d := abs_of_nonpos h2
  rw [habs, min_eq_left (by linarith)]
  ring

theorem home_split_eq_far (d : ℝ) (h1 : d ≤ -0.8) :
    home_split d = 0.75 * sigmoid (1.8 * d) := by
  unfold home_split
  rw [one_minus_draw]
  have habs : |d| = -d := abs_of_nonpos (by linarith)
  rw [habs, min_eq_right (by linarith)]
  norm_num

theorem home_split_mono_far (d1 d2 : ℝ) (h1 : d1 < d2) (h2 : d2 ≤ -0.8) :
    home_split d1 < home_split d2 := by
  rw [home_split_eq_far d1 (by linarith), home_split_eq_far d2 h2]
  have hs : sigmoid (1.8 * d1) < sigmoid (1.8 * d2) :=
    sigmoid_strictMono (by linarith)
  linarith

theorem home_split_mono_mid (d1 d2 : ℝ) (hl : -0.8 ≤ d1) (h12 : d1 < d2)
    (hr : d2 ≤ 0) : home_split d1 < home_split d2 := by
  rw [home_split_eq_mid d1 hl (by linarith),
    home_split_eq_mid d2 (by linarith) hr]
  unfold sigmoid
  have hA1 : (0:ℝ) < 1 + Real.exp (-(1.8 * d1)) := one_add_exp_pos _
  have hA2 : (0:ℝ) < 1 + Real.exp (-(1.8 * d2)) := one_add_exp_pos _
  rw [mul_one_div, mul_one_div, div_lt_div_iff₀ hA1 hA2]
  have hu : (1:ℝ) ≤ Real.exp (-(1.8 * d2)) :=
    Real.one_le_exp (by linarith)
  have hE : 1.8 * (d2 - d1) + 1 < Real.exp (1.8 * (d2 - d1)) :=
    Real.add_one_lt_exp (by intro hc; nlinarith)
  have hsplit : Real.exp (-(1.8 * d1)) =
      Real.exp (-(1.8 * d2)) * Real.exp (1.8 * (d2 - d1)) := by
    rw [← Real.exp_add]
    ring_nf
  rw [hsplit]
  have hEpos : (0:ℝ) < Real.exp (1.8 * (d2 - d1)) := Real.exp_pos _
  have hb : (0.6:ℝ) ≤ 0.6 - 0.1875 * d2 := by linarith
  have hE1 : (0:ℝ) < Real.exp (1.8 * (d2 - d1)) - 1 := by nlinarith
  have hprod : (0.6:ℝ) * (Real.exp (1.8 * (d2 - d1)) - 1) ≤
      (0.6 - 0.1875 * d2) * (Real.exp (1.8 * (d2 - d1)) - 1) :=
    mul_le_mul_of_nonneg_right hb hE1.le
  have hbr : (0.8925:ℝ) * (d2 - d1) <
      (0.6 - 0.1875 * d2) * (Real.exp (1.8 * (d2 - d1)) - 1) -
        0.1875 * (d2 - d1) := by nlinarith
  have hbrpos : (0:ℝ) < (0.6 - 0.1875 * d2) *
      (Real.exp (1.8 * (d2 - d1)) - 1) - 0.1875 * (d2 - d1) := by
    nlinarith
  nlinarith [mul_le_mul_of_nonneg_right hu hbrpos.le]

theorem home_split_mono_nonneg (d1 d2 : ℝ) (hl : 0 ≤ d1) (h12 : d1 < d2) :
    home_split d1 < home_split d2 := by
  unfold home_split
  rw [one_minus_draw, one_minus_draw]
  have habs1 : |d1| = d1 := abs_of_nonneg hl
  have habs2 : |d2| = d2 := abs_of_nonneg (by linarith)
  rw [habs1, habs2]
  have hf : (0.6:ℝ) + 0.1875 * min d1 0.8 ≤ 0.6 + 0.1875 * min d2 0.8 := by
    have : min d1 0.8 ≤ min d2 0.8 := by
      rcases le_total d2 0.8 with h | h
      · rw [min_eq_left h, min_eq_left (by linarith)]
        linarith
      · rw [min_eq_right h]
        exact min_le_right _ _
    linarith
  have hfpos : (0:ℝ) < 0.6 + 0.1875 * min d1 0.8 := by
    have : (0:ℝ) ≤ min d1 0.8 := le_min hl (by norm_num)
    linarith
  have hs : sigmoid (1.8 * d1) < sigmoid (1.8 * d2) :=
    sigmoid_strictMono (by linarith)
  have hspos : (0:ℝ) < sigmoid (1.8 * d1) := sigmoid_pos _
  calc (0.6 + 0.1875 * min d1 0.8) * sigmoid (1.8 * d1)
      ≤ (0.6 + 0.1875 * min d2 0.8) * sigmoid (1.8 * d1) :=
        mul_le_mul_of_nonneg_right hf hspos.le
    _ < (0.6 + 0.1875 * min d2 0.8) * sigmoid (1.8 * d2) :=
        mul_lt_mul_of_pos_left hs (by linarith)

theorem home_split_mono_nonpos (d1 d2 : ℝ) (h12 : d1 < d2) (hr : d2 ≤ 0) :
    home_split d1 < home_split d2 := by
  rcases le_or_lt (-0.8) d1 with hl | hl
  · exact home_split_mono_mid d1 d2 hl h12 hr
  · rcases le_or_lt d2 (-0.8) with hc | hc
    · exact home_split_mono_far d1 d2 h12 hc
    · exact lt_trans (home_split_mono_far d1 (-0.8) hl le_rfl)
        (home_split_mono_mid (-0.8) d2 le_rfl hc hr)

theorem home_split_strictMono : StrictMono home_split := by
  intro d1 d2 h12
  rcases le_or_lt 0 d1 with hl | hl
  · exact home_split_mono_nonneg d1 d2 hl h12
  · rcases le_or_lt d2 0 with hr | hr
    · exact home_split_mono_nonpos d1 d2 h12 hr
    · exact lt_trans (home_split_mono_nonpos d1 0 hl le_rfl)
        (home_split_mono_nonneg 0 d2 le_rfl hr)

theorem draw_probability_neg (d : ℝ) :
    draw_probability (-d) = draw_probability d := by
  unfold draw_probability
  rw [abs_neg]

theorem cop_swap_home (h a : ℝ) :
    (calculate_outcome_probabilities a h).home =
      (calculate_outcome_probabilities h a).away := by
  rw [cop_home, cop_away]
  have hd : a - h = -(h - a) := by ring
  rw [hd, draw_probability_neg]
  have hs : (1.8:ℝ) * -(h - a) = -(1.8 * (h - a)) := by ring
  rw [hs, sigmoid_neg]

theorem cop_swap_draw (h a : ℝ) :
    (calculate_outcome_probabilities a h).draw =
      (calculate_outcome_probabilities h a).draw := by
  rw [cop_draw, cop_draw]
  have hd : a - h = -(h - a) := by ring
  rw [hd, draw_probability_neg]

theorem sign_of_mul_pos (x c : ℝ) (hc : 0 < c) :
    (0 < x * c ↔ 0 < x) ∧ (x * c = 0 ↔ x = 0) ∧ (x * c < 0 ↔ x < 0) := by
  refine ⟨mul_pos_iff_of_pos_right hc, ⟨fun h => ?_, fun h => by
    rw [h, zero_mul]⟩, ⟨fun h => ?_, fun h => mul_neg_of_neg_of_pos h hc⟩⟩
  · rcases mul_eq_zero.mp h with h | h
    · exact h
    · exact absurd h hc.ne'
  · by_contra hx
    push_neg at hx
    nlinarith

theorem edge_percentage_eq (p mp : ℝ) :
    edge_percentage p mp = (p - mp) * (100 / mp) := by
  unfold edge_percentage
  ring

theorem sigmoid_072_gt : (0.671:ℝ) < sigmoid 0.72 := by
  unfold sigmoid
  have hE := exp_072_gt
  have hEpos : (0:ℝ) < Real.exp 0.72 := Real.exp_pos _
  rw [Real.exp_neg]
  have hinv : (Real.exp 0.72)⁻¹ < 1 / 2.04 := by
    rw [inv_eq_one_div]
    exact one_div_lt_one_div_of_lt (by norm_num) hE
  have hden : (0:ℝ) < 1 + (Real.exp 0.72)⁻¹ := by
    have : (0:ℝ) < (Real.exp 0.72)⁻¹ := inv_pos.mpr hEpos
    linarith
  rw [lt_div_iff₀ hden]
  nlinarith

theorem sigmoid_072_lt : sigmoid 0.72 < 0.6764 := by
  unfold sigmoid
  have hE := exp_072_lt
  have hEpos : (0:ℝ) < Real.exp 0.72 := Real.exp_pos _
  rw [Real.exp_neg]
  have hinv : (1:ℝ) / 2.09 < (Real.exp 0.72)⁻¹ := by
    rw [inv_eq_one_div]
    exact one_div_lt_one_div_of_lt hEpos hE
  have hden : (0:ℝ) < 1 + (Real.exp 0.72)⁻¹ := by
    have : (0:ℝ) < (Real.exp 0.72)⁻¹ := inv_pos.mpr hEpos
    linarith
  rw [div_lt_iff₀ hden]
  nlinarith

theorem sigmoid_018_lt : sigmoid 0.18 < 0.55 := by
  unfold sigmoid
  have h1 := exp_neg_018_ge
  have hden : (0:ℝ) < 1 + Real.exp (-0.18) := one_add_exp_pos _
  rw [div_lt_iff₀ hden]
  nlinarith

theorem sigmoid_neg_018_lt : sigmoid (-0.18) < 0.46 := by
  unfold sigmoid
  have h1 := exp_018_ge
  have hden : (0:ℝ) < 1 + Real.exp (-(-0.18)) := one_add_exp_pos _
  rw [div_lt_iff₀ hden]
  have h2 : Real.exp (-(-0.18)) = Real.exp 0.18 := by norm_num
  rw [h2] at hden ⊢
  nlinarith

theorem sum_profit_split (stake : ℝ) (recs : List PredictionRecord) :
    (recs.map
        (fun r => if r.correct then stake * (r.odds - 1) else -stake)).sum =
      ((recs.filter (fun r => r.correct)).map
          (fun r => stake * (r.odds - 1))).sum -
        ((recs.filter (fun r => !r.correct)).map (fun _ => stake)).sum := by
  induction recs with
  | nil => simp
  | cons r rs ih =>
    cases hr : r.correct
    · simp only [List.map_cons, List.sum_cons, List.filter_cons, hr,
        Bool.not_false, if_neg, ih]
      norm_num
      ring
    · simp only [List.map_cons, List.sum_cons, List.filter_cons, hr,
        Bool.not_true, if_pos, ih]
      norm_num
      ring

/-- C1: For every fixture and every model kind, the predicted outcome
of a generated Pick equals the outcome with the highest model
probability (argmax over the three model probabilities); the
synthesized market odds (and hence market probabilities and edge) never
influence which outcome is chosen — replacing the fixture's market
odds by any other triple leaves the chosen outcome unchanged, even when
the edge-argmax and the probability-argmax disagree. -/
theorem C1_pick_is_probability_argmax (m : ModelConfig)
    (L : LeagueAverages) (f : Fixture) (odds2 : Triple ℝ) :
    (generate_pick_for_fixture m L f).outcome =
        best_outcome (model_probabilities m L f) ∧
      (∀ o : Outcome, (model_probabilities m L f).get o ≤
        (model_probabilities m L f).get
          ((generate_pick_for_fixture m L f).outcome)) ∧
      (generate_pick_for_fixture m L
          { f with market_odds := odds2 }).outcome =
        (generate_pick_for_fixture m L f).outcome := by
  refine ⟨rfl, fun o => best_outcome_ge _ o, rfl⟩

/-- C9: For every Pick, the edge is computed as
`(model_prob - market_prob) / market_prob × 100` for the
already-selected outcome, and the sign of the edge always equals the
sign of the model probability of the chosen outcome minus its market
probability. -/
theorem C9_edge_sign_matches_probability_difference (p mp : ℝ)
    (hmp : 0 < mp) (probs odds : Triple ℝ) :
    ((0 < edge_percentage p mp ↔ mp < p) ∧
        (edge_percentage p mp = 0 ↔ p = mp) ∧
        (edge_percentage p mp < 0 ↔ p < mp)) ∧
      (generate_pick probs odds).edge =
        edge_percentage (probs.get (best_outcome probs))
          (market_probability (odds.get (best_outcome probs))) := by
  have hc : (0:ℝ) < 100 / mp := by positivity
  have hkey := sign_of_mul_pos (p - mp) (100 / mp) hc
  refine ⟨⟨?_, ?_, ?_⟩, rfl⟩
  · rw [edge_percentage_eq]
    rw [hkey.1]
    constructor <;> intro h <;> linarith
  · rw [edge_percentage_eq, hkey.2.1]
    constructor <;> intro h <;> linarith
  · rw [edge_percentage_eq, hkey.2.2]
    constructor <;> intro h <;> linarith

/-- Witness for C9 at the concrete probabilities `p = 1/2`,
`mp = 1/4`. -/
theorem C9_witness :
    (0:ℝ) < 1/4 ∧
      (0 < edge_percentage ((1:ℝ)/2) (1/4) ↔ (1/4:ℝ) < 1/2) :=
  ⟨by norm_num,
    (C9_edge_sign_matches_probability_difference ((1:ℝ)/2) (1/4)
      (by norm_num) ⟨1, 1, 1⟩ ⟨2, 2, 2⟩).1.1⟩

/-- C8: The simulation is deterministic: two simulation runs (and two
pick generations) with the same model configuration and fixture set
produce identical results whatever the ambient entropy source holds —
the engine's computation never samples randomness. -/
theorem C8_simulation_deterministic (rng1 rng2 : ℕ → ℤ)
    (m : ModelConfig) (L : LeagueAverages) (games : List Fixture)
    (stake : ℝ) :
    run_simulation_with_entropy rng1 m L games stake =
        run_simulation_with_entropy rng2 m L games stake ∧
      generate_picks_with_entropy rng1 m L games =
        generate_picks_with_entropy rng2 m L games :=
  ⟨rfl, rfl⟩

/-- C6: For every fixture in a simulation run, the Simulation Runner
dispatches on the model's kind (Poisson models are scored through the
Poisson grid path, weighted models through the weighted
score-plus-calibration path), and the per-fixture prediction and edge
are identical to those produced by live pick generation on the same
input. -/
theorem C6_simulation_matches_live_generation (m : ModelConfig)
    (L : LeagueAverages) (f : Fixture) :
    (simulate_fixture m L f).predicted =
        (generate_pick_for_fixture m L f).outcome ∧
      (simulate_fixture m L f).edge =
        (generate_pick_for_fixture m L f).edge ∧
      (simulate_fixture { m with use_xg_model := true } L f).predicted =
        best_outcome (xg_outcome_probabilities
          (lambda_home f.home.xg f.away.xg L)
          (lambda_away f.home.xg f.away.xg L)) ∧
      (simulate_fixture { m with use_xg_model := false } L f).predicted =
        best_outcome (calculate_outcome_probabilities
          (calculate_team_score { m with use_xg_model := false } f.home true)
          (calculate_team_score { m with use_xg_model := false } f.away
            false)) := by
  refine ⟨?_, ?_, rfl, rfl⟩ <;>
    · cases hm : m.use_xg_model <;>
        simp [simulate_fixture, generate_pick_for_fixture,
          model_probabilities, generate_pick, generate_xg_poisson_pick, hm]

/-- C4: For every Pick produced by either model kind, the three
outcome probabilities (home, draw, away) sum to 1 within a tolerance of
`1e-6` — the weighted calibrator's probabilities sum to exactly 1, and
the Poisson grid probabilities sum to exactly 1 after normalization. -/
theorem C4_probabilities_sum_to_one :
    (∀ h a : ℝ,
        |(calculate_outcome_probabilities h a).home +
            (calculate_outcome_probabilities h a).draw +
            (calculate_outcome_probabilities h a).away - 1| ≤ 0.000001) ∧
      (∀ lh la : ℝ, 0 < lh → 0 < la →
        |(xg_outcome_probabilities lh la).home +
            (xg_outcome_probabilities lh la).draw +
            (xg_outcome_probabilities lh la).away - 1| ≤ 0.000001) := by
  constructor
  · intro h a
    rw [cop_home, cop_draw, cop_away]
    have : (1 - draw_probability (h - a)) * sigmoid (1.8 * (h - a)) +
        draw_probability (h - a) +
        (1 - draw_probability (h - a)) * (1 - sigmoid (1.8 * (h - a))) -
        1 = 0 := by ring
    rw [this]
    norm_num
  · intro lh la h1 h2
    rw [xg_sum_eq_one lh la h1 h2]
    norm_num

/-- Witness for C4 at the concrete lambdas `λ_home = λ_away = 1`. -/
theorem C4_witness :
    (0:ℝ) < 1 ∧
      |(xg_outcome_probabilities 1 1).home +
          (xg_outcome_probabilities 1 1).draw +
          (xg_outcome_probabilities 1 1).away - 1| ≤ 0.000001 :=
  ⟨by norm_num,
    C4_probabilities_sum_to_one.2 1 1 (by norm_num) (by norm_num)⟩

/-- C5: The Poisson/xG model computes attack strength as team xG per
match over the league average and defense strength as team xGA per
match over the league average, sets
`λ_home = leagueAvgHome × homeAttack × awayDefense` and
`λ_away = leagueAvgAway × awayAttack × homeDefense`, reports the
lambdas directly as the projected score, derives the outcome
probabilities by summing the truncated joint Poisson score grid and
normalizing, and for `λ_home = 1.8`, `λ_away = 1.3` the resulting
ordering is P(home win) > P(away win) > P(draw). -/
theorem C5_poisson_model_structure :
    (∀ (home away : XgStats) (L : LeagueAverages),
        lambda_home home away L =
            L.home * (home.xg_per_match / L.overall) *
              (away.xga_per_match / L.overall) ∧
          lambda_away home away L =
            L.away * (away.xg_per_match / L.overall) *
              (home.xga_per_match / L.overall)) ∧
      (∀ (home away : XgStats) (L : LeagueAverages) (odds : Triple ℝ),
        (generate_xg_poisson_pick home away L odds).projected_home_score =
            lambda_home home away L ∧
          (generate_xg_poisson_pick home away L odds).projected_away_score =
            lambda_away home away L) ∧
      (∀ lh la : ℝ,
        (xg_outcome_probabilities lh la).home =
            poisson_mass lh la (fun i j => j < i) /
              poisson_mass lh la (fun _ _ => True) ∧
          (xg_outcome_probabilities lh la).draw =
            poisson_mass lh la (fun i j => i = j) /
              poisson_mass lh la (fun _ _ => True) ∧
          (xg_outcome_probabilities lh la).away =
            poisson_mass lh la (fun i j => i < j) /
              poisson_mass lh la (fun _ _ => True)) ∧
      ((xg_outcome_probabilities 1.8 1.3).away <
          (xg_outcome_probabilities 1.8 1.3).home ∧
        (xg_outcome_probabilities 1.8 1.3).draw <
          (xg_outcome_probabilities 1.8 1.3).away) := by
  refine ⟨fun home away L => ⟨rfl, rfl⟩,
    fun home away L odds => ⟨rfl, rfl⟩,
    fun lh la => ⟨rfl, rfl, rfl⟩,
    xg_ordering_18_13⟩

/-- C7: For every simulation over a non-empty fixture set with a fixed
stake per bet, the accuracy percentage equals
`100 × correct / total`, the net profit equals the sum of
`stake × (odds - 1)` over correct predictions minus the sum of the
stake over incorrect predictions, and the ROI percentage equals
`100 × net_profit / total_stake`. -/
theorem C7_simulation_accounting (m : ModelConfig) (L : LeagueAverages)
    (games : List Fixture) (stake : ℝ) (hne : games ≠ []) :
    (run_simulation m L games stake).accuracy_percentage =
        100 * (run_simulation m L games stake).correct_predictions /
          (run_simulation m L games stake).total_games ∧
      (run_simulation m L games stake).net_profit =
        (((run_simulation m L games stake).predictions.filter
              (fun r => r.correct)).map
            (fun r => stake * (r.odds - 1))).sum -
          (((run_simulation m L games stake).predictions.filter
              (fun r => !r.correct)).map (fun _ => stake)).sum ∧
      (run_simulation m L games stake).roi_percentage =
        100 * (run_simulation m L games stake).net_profit /
          (run_simulation m L games stake).total_stake := by
  refine ⟨rfl, ?_, rfl⟩
  exact sum_profit_split stake (games.map (simulate_fixture m L))

theorem scenarioA_diff : (1.82:ℝ) - 2.22 = -0.4 := by norm_num

theorem scenarioA_draw :
    (calculate_outcome_probabilities 1.82 2.22).draw = 0.325 := by
  rw [cop_draw, scenarioA_diff]
  have habs : |(-0.4:ℝ)| = 0.4 := by
    rw [abs_neg, abs_of_nonneg]
    norm_num
  rw [draw_probability_of_le _ (by rw [habs]; norm_num), habs]
  norm_num

theorem scenarioA_sigmoid :
    sigmoid (1.8 * ((1.82:ℝ) - 2.22)) = 1 - sigmoid 0.72 := by
  rw [show (1.8:ℝ) * ((1.82:ℝ) - 2.22) = -0.72 by norm_num]
  exact sigmoid_neg 0.72

theorem scenarioA_home_lt :
    (calculate_outcome_probabilities 1.82 2.22).home < 0.2221 := by
  rw [cop_home, scenarioA_sigmoid]
  have hdp : draw_probability ((1.82:ℝ) - 2.22) = 0.325 := by
    have := scenarioA_draw
    rw [cop_draw] at this
    exact this
  rw [hdp]
  have hs := sigmoid_072_gt
  nlinarith

theorem scenarioA_away_gt :
    (0.4529:ℝ) < (calculate_outcome_probabilities 1.82 2.22).away := by
  rw [cop_away, scenarioA_sigmoid]
  have hdp : draw_probability ((1.82:ℝ) - 2.22) = 0.325 := by
    have := scenarioA_draw
    rw [cop_draw] at this
    exact this
  rw [hdp]
  have hs := sigmoid_072_gt
  nlinarith

theorem scenarioA_away_lt :
    (calculate_outcome_probabilities 1.82 2.22).away < 0.4566 := by
  rw [cop_away, scenarioA_sigmoid]
  have hdp : draw_probability ((1.82:ℝ) - 2.22) = 0.325 := by
    have := scenarioA_draw
    rw [cop_draw] at this
    exact this
  rw [hdp]
  have hs := sigmoid_072_lt
  nlinarith

theorem scenarioA_outcome :
    best_outcome (calculate_outcome_probabilities 1.82 2.22) =
      Outcome.away := by
  have h1 : (calculate_outcome_probabilities 1.82 2.22).home <
      (calculate_outcome_probabilities 1.82 2.22).draw := by
    rw [scenarioA_draw]
    linarith [scenarioA_home_lt]
  have h2 : (calculate_outcome_probabilities 1.82 2.22).draw <
      (calculate_outcome_probabilities 1.82 2.22).away := by
    rw [scenarioA_draw]
    linarith [scenarioA_away_gt]
  unfold best_outcome
  rw [if_pos h1, if_pos h2]

theorem scenarioA_edge_formula :
    (generate_pick (calculate_outcome_probabilities 1.82 2.22)
        ⟨3.18, 3.50, 2.22⟩).edge =
      edge_percentage (calculate_outcome_probabilities 1.82 2.22).away
        (market_probability 2.22) := by
  have h : (generate_pick (calculate_outcome_probabilities 1.82 2.22)
      ⟨3.18, 3.50, 2.22⟩).edge =
      edge_percentage ((calculate_outcome_probabilities 1.82 2.22).get
          (best_outcome (calculate_outcome_probabilities 1.82 2.22)))
        (market_probability ((Triple.mk (3.18:ℝ) 3.50 2.22).get
          (best_outcome (calculate_outcome_probabilities 1.82 2.22)))) := rfl
  rw [h, scenarioA_outcome]
  rfl

/-- C3 (counterexample): at the Scenario A input — weighted projected
scores home 1.82, away 2.22 with synthesized market odds
{home 3.18, draw 3.50, away 2.22} — the computed edge of the generated
Pick is strictly positive, so it is not approximately -13.4% as the
claim states (and the calibrator's draw probability there is 32.5%,
not approximately 30%). -/
theorem C3_counterexample :
    0 < (generate_pick (calculate_outcome_probabilities 1.82 2.22)
        ⟨3.18, 3.50, 2.22⟩).edge ∧
      (calculate_outcome_probabilities 1.82 2.22).draw = 0.325 := by
  constructor
  · rw [scenarioA_edge_formula]
    have hm : market_probability (2.22:ℝ) = 50 / 111 := by
      unfold market_probability
      norm_num
    rw [hm, edge_percentage_eq]
    have ha := scenarioA_away_gt
    have hc : (0:ℝ) < 100 / (50 / 111) := by norm_num
    rw [(sign_of_mul_pos _ _ hc).1]
    have : (50:ℝ) / 111 < 0.4529 := by norm_num
    linarith
  · exact scenarioA_draw

/-- C3 (amended): for the weighted-model input projected scores
home 1.82 and away 2.22, the calibrator returns draw probability
exactly 32.5%, home below 22.3% and away between 45.2% and 45.7%; the
Pick's predicted outcome is "away"; with market odds
{home 3.18, draw 3.50, away 2.22} the market probability of the
selected outcome is exactly 50/111 ≈ 45.0%; and the computed edge is
small and positive (between 0 and 2%), not -13.4%. -/
theorem C3_scenarioA_amended :
    (calculate_outcome_probabilities 1.82 2.22).draw = 0.325 ∧
      (calculate_outcome_probabilities 1.82 2.22).home < 0.223 ∧
      0.452 < (calculate_outcome_probabilities 1.82 2.22).away ∧
      (calculate_outcome_probabilities 1.82 2.22).away < 0.457 ∧
      (generate_pick (calculate_outcome_probabilities 1.82 2.22)
          ⟨3.18, 3.50, 2.22⟩).outcome = Outcome.away ∧
      market_probability ((Triple.mk (3.18:ℝ) 3.50 2.22).get
          Outcome.away) = 50 / 111 ∧
      0 < (generate_pick (calculate_outcome_probabilities 1.82 2.22)
          ⟨3.18, 3.50, 2.22⟩).edge ∧
      (generate_pick (calculate_outcome_probabilities 1.82 2.22)
          ⟨3.18, 3.50, 2.22⟩).edge < 2 := by
  have hm : market_probability (2.22:ℝ) = 50 / 111 := by
    unfold market_probability
    norm_num
  refine ⟨scenarioA_draw, by linarith [scenarioA_home_lt],
    by linarith [scenarioA_away_gt], by linarith [scenarioA_away_lt],
    scenarioA_outcome, hm, ?_, ?_⟩
  · rw [scenarioA_edge_formula, hm, edge_percentage_eq]
    have ha := scenarioA_away_gt
    have hc : (0:ℝ) < 100 / (50 / 111) := by norm_num
    rw [(sign_of_mul_pos _ _ hc).1]
    have : (50:ℝ) / 111 < 0.4529 := by norm_num
    linarith
  · rw [scenarioA_edge_formula, hm, edge_percentage_eq]
    have ha := scenarioA_away_lt
    have h100 : (100:ℝ) / (50 / 111) = 222 := by norm_num
    rw [h100]
    nlinarith

/-- C2 (counterexample): at the unequal projected scores home 1.6,
away 1.5 the weighted calibrator still makes draw the strict maximum of
the three probabilities, so "draw is the maximum exactly when the two
projected scores are equal" fails in the only-if direction. -/
theorem C2_counterexample :
    (1.6:ℝ) ≠ 1.5 ∧
      (calculate_outcome_probabilities 1.6 1.5).home <
        (calculate_outcome_probabilities 1.6 1.5).draw ∧
      (calculate_outcome_probabilities 1.6 1.5).away <
        (calculate_outcome_probabilities 1.6 1.5).draw := by
  have hdiff : (1.6:ℝ) - 1.5 = 0.1 := by norm_num
  have habs : |(0.1:ℝ)| = 0.1 := abs_of_nonneg (by norm_num)
  have hdp : draw_probability ((1.6:ℝ) - 1.5) = 0.38125 := by
    rw [hdiff, draw_probability_of_le _ (by rw [habs]; norm_num), habs]
    norm_num
  have hs : sigmoid (1.8 * ((1.6:ℝ) - 1.5)) = sigmoid 0.18 := by
    rw [show (1.8:ℝ) * ((1.6:ℝ) - 1.5) = 0.18 by norm_num]
  have hneg : 1 - sigmoid 0.18 < 0.46 := by
    have h1 := sigmoid_neg_018_lt
    rw [sigmoid_neg] at h1
    linarith
  refine ⟨by norm_num, ?_, ?_⟩
  · rw [cop_home, cop_draw, hdp, hs]
    have h1 := sigmoid_018_lt
    have h2 := sigmoid_pos (0.18:ℝ)
    nlinarith
  · rw [cop_away, cop_draw, hdp, hs]
    have h1 := sigmoid_lt_one (0.18:ℝ)
    nlinarith

/-- C2 (amended): for the weighted-model probability calibrator the
draw probability is maximized at exactly 40% when the score difference
is 0, decreases linearly in the absolute difference (slope 0.1875) down
to a floor of exactly 25% reached at the saturation point 0.8, and
whenever the two projected scores are equal the draw probability is the
strict maximum of the three output probabilities (equality of scores is
sufficient — but, per the counterexample, not necessary — for draw to
be the maximum). -/
theorem C2_draw_probability_shape :
    draw_probability 0 = 0.4 ∧
      (∀ d : ℝ, |d| ≤ 0.8 → draw_probability d = 0.4 - 0.1875 * |d|) ∧
      (∀ d : ℝ, 0.8 ≤ |d| → draw_probability d = 0.25) ∧
      (∀ h : ℝ,
        (calculate_outcome_probabilities h h).home <
            (calculate_outcome_probabilities h h).draw ∧
          (calculate_outcome_probabilities h h).away <
            (calculate_outcome_probabilities h h).draw) := by
  have hd0 : draw_probability 0 = 0.4 := by
    rw [draw_probability_of_le 0 (by rw [abs_zero]; norm_num), abs_zero]
    norm_num
  refine ⟨hd0, fun d h => draw_probability_of_le d h,
    fun d h => draw_probability_of_ge d h, fun h => ?_⟩
  have hsub : h - h = (0:ℝ) := sub_self h
  constructor
  · rw [cop_home, cop_draw, hsub, hd0, mul_zero, sigmoid_zero]
    norm_num
  · rw [cop_away, cop_draw, hsub, hd0, mul_zero, sigmoid_zero]
    norm_num

/-- Witness for C2 (amended) at the concrete differences `d = 0.4`
(inside the saturation band) and `d = 2` (beyond it). -/
theorem C2_witness :
    |(0.4:ℝ)| ≤ 0.8 ∧
      draw_probability 0.4 = 0.4 - 0.1875 * |(0.4:ℝ)| ∧
      (0.8:ℝ) ≤ |(2:ℝ)| ∧
      draw_probability 2 = 0.25 :=
  ⟨by rw [abs_of_nonneg] <;> norm_num,
    C2_draw_probability_shape.2.1 0.4 (by rw [abs_of_nonneg] <;> norm_num),
    by rw [abs_of_nonneg] <;> norm_num,
    C2_draw_probability_shape.2.2.1 2 (by rw [abs_of_nonneg] <;> norm_num)⟩

/-- C10: the weighted-model probability calibrator is symmetric and
monotone — swapping the home and away projected scores swaps the home
and away output probabilities and leaves the draw probability
unchanged, and for a fixed away score the home-win probability is
strictly increasing in the home score. -/
theorem C10_calibrator_symmetric_and_monotone :
    (∀ h a : ℝ,
        (calculate_outcome_probabilities a h).home =
            (calculate_outcome_probabilities h a).away ∧
          (calculate_outcome_probabilities a h).away =
            (calculate_outcome_probabilities h a).home ∧
          (calculate_outcome_probabilities a h).draw =
            (calculate_outcome_probabilities h a).draw) ∧
      (∀ a : ℝ,
        StrictMono (fun h => (calculate_outcome_probabilities h a).home)) := by
  constructor
  · intro h a
    exact ⟨cop_swap_home h a, (cop_swap_home a h).symm, cop_swap_draw h a⟩
  · intro a x y hxy
    simp only [cop_home_eq_split]
    exact home_split_strictMono (by linarith : x - a < y - a)

/-- Witness for C10 at concrete scores: the swap identity at (1, 2)
and strict monotonicity from home score 1.5 to 2 with away score 1. -/
theorem C10_witness :
    (calculate_outcome_probabilities 1 2).home =
        (calculate_outcome_probabilities 2 1).away ∧
      (calculate_outcome_probabilities 1.5 1).home <
        (calculate_outcome_probabilities 2 1).home :=
  ⟨(C10_calibrator_symmetric_and_monotone.1 2 1).1,
    (C10_calibrator_symmetric_and_monotone.2 1)
      (by norm_num : (1.5:ℝ) < 2)⟩

/-- A concrete completed fixture used to witness the simulation
accounting theorem. -/
noncomputable def witnessFixture : Fixture :=
  ⟨⟨70, 70, 60, 10, ⟨2, 1⟩⟩, ⟨60, 65, 55, 5, ⟨1, 2⟩⟩, ⟨2, 3, 4⟩,
    Outcome.home⟩

/-- A concrete league-average snapshot used to witness the simulation
accounting theorem. -/
noncomputable def witnessLeague : LeagueAverages :=
  { overall := 1.4, home := 1.5, away := 1.2 }

/-- A concrete weighted model configuration used to witness the
simulation accounting theorem. -/
noncomputable def witnessModel : ModelConfig :=
  { use_xg_model := false, team_offense := 20, team_defense := 20,
    recent_form := 20, injuries := 20, home_advantage := 20 }

/-- Witness for C7 on the concrete one-fixture set with stake 10. -/
theorem C7_witness :
    ([witnessFixture] ≠ ([] : List Fixture)) ∧
      (run_simulation witnessModel witnessLeague [witnessFixture]
            10).accuracy_percentage =
        100 * (run_simulation witnessModel witnessLeague [witnessFixture]
            10).correct_predictions /
          (run_simulation witnessModel witnessLeague [witnessFixture]
            10).total_games :=
  ⟨List.cons_ne_nil _ _,
    (C7_simulation_accounting witnessModel witnessLeague [witnessFixture]
      10 (List.cons_ne_nil _ _)).1⟩
